import Mathlib

/-!
Shallow embedding of the withdrawal route layer (src/routes/withdrawal.js).

Modelling conventions:
* JS numbers that hold currency amounts are modelled as rationals (`ℚ`);
  the spec places floating-point precision out of scope.
* A request-body field that may be absent is an `Option`.
* The numeric coercion `Number(amount)` with its NaN-to-zero fallback is
  modelled by `Option ℚ` on the input: `none` stands for a non-numeric
  value (`NaN`), which the handler replaces by `0`.
* JS falsiness of a string is emptiness; falsiness of a number is being `0`.
* The current instant is an integer count of seconds since the epoch; the
  business-hours check derives the Africa/Nairobi (fixed UTC+3) hour from it.
* The two Mongo collections are lists: `DB.users` and `DB.withdrawals`.
  `findById` is `List.find?` on the id field; `save` of a user replaces the
  matching entry; `save` of a new withdrawal document appends it.
-/

/-- Characters removed by the JS `String.prototype.trim`. -/
def isWS (c : Char) : Bool := c.isWhitespace

/-- JS `s.trim()`: surrounding whitespace removed, modelled structurally on
the character list so that it evaluates by kernel reduction. -/
def jsTrim (s : String) : String :=
  String.mk (((s.data.dropWhile isWS).reverse.dropWhile isWS).reverse)

/-- An entry of the optional embedded `user.withdrawals` array.  The handler
pushes `{ amount: netAmount, phone, date, status }` — the net amount. -/
structure SummaryEntry where
  amount : ℤ
  phone : String
  date : ℤ
  status : String
deriving DecidableEq

/-- The user (account) document.  Besides the three fields the POST handler
mutates (`wallet`, `cashouts`, `withdrawals`), it carries the identity and
profile fields that the rest of the routes read (`fullName`, `phone`,
`email`), standing in for the untouched remainder of the document.
`cashouts` is optional: the source writes `(user.cashouts || 0) + amount`.
`withdrawals` is optional: the source guards on `Array.isArray`. -/
structure User where
  id : String
  fullName : String
  phone : String
  email : String
  wallet : ℚ
  cashouts : Option ℚ
  withdrawals : Option (List SummaryEntry)
deriving DecidableEq

/-- A document of the `Withdrawal` collection, as built by the POST handler:
gross `amount`, net `amountAfterTax` (optional in the schema — the history
mapper defends against legacy records with `??`), payout `mpesaNumber`,
`status`, and the `date` instant. -/
structure WithdrawalDoc where
  id : ℕ
  user : String
  amount : ℚ
  amountAfterTax : Option ℚ
  mpesaNumber : String
  status : String
  date : ℤ
deriving DecidableEq

/-- The persistent store: the two collections. -/
structure DB where
  users : List User
  withdrawals : List WithdrawalDoc
deriving DecidableEq

/-- The request body of `POST /`: `userId`, `amount` (after `Number(...)`
coercion, `none` = non-numeric), and the two payout-number aliases. -/
structure SubmitInput where
  userId : String
  amount : Option ℚ
  phone : Option String
  mpesaNumber : Option String
deriving DecidableEq

/-- The five user-facing rejections of the POST handler, in source order. -/
inductive SubmitError where
  | missingFields
  | belowMinimum
  | outsideBusinessHours
  | accountNotFound
  | insufficientBalance
deriving DecidableEq

/-- `amount = Number(amount); if (Number.isNaN(amount)) amount = 0;` -/
def jsAmount (inp : SubmitInput) : ℚ := inp.amount.getD 0

/-- A JS string option as a truthy value: present and non-empty. -/
def truthyStr (o : Option String) : Option String :=
  match o with
  | some s => if s = "" then none else some s
  | none => none

/-- `const payoutNumber = (phone || mpesaNumber || "").toString().trim();` -/
def payoutOf (inp : SubmitInput) : String :=
  jsTrim (((truthyStr inp.phone).orElse (fun _ => truthyStr inp.mpesaNumber)).getD "")

/-- The hour component of an instant in the fixed UTC+3 civil zone
(`moment().tz("Africa/Nairobi").hour()`), a pure function of the instant
(epoch seconds), independent of any server-local zone. -/
def kenyaHour (now : ℤ) : ℤ :=
  Int.emod (Int.ediv (now + 3 * 3600) 3600) 24

/-- `const tax = amount * 0.18;` -/
def tax (amount : ℚ) : ℚ := amount * (18 / 100)

/-- `const netAmount = Math.floor(amount - tax);` -/
def netOf (amount : ℚ) : ℤ := ⌊amount - tax amount⌋

/-- The `Withdrawal` document built on success: gross amount, net
`amountAfterTax`, payout number, status `"pending"`, the captured instant.
Its id is freshly assigned from the collection size. -/
def newDoc (db : DB) (now : ℤ) (inp : SubmitInput) : WithdrawalDoc :=
  { id := db.withdrawals.length
    user := inp.userId
    amount := jsAmount inp
    amountAfterTax := some ((netOf (jsAmount inp) : ℤ) : ℚ)
    mpesaNumber := payoutOf inp
    status := "pending"
    date := now }

/-- The entry pushed onto the embedded `user.withdrawals` array: the net
amount, the payout number, the captured instant, status `"pending"`. -/
def summaryEntry (net : ℤ) (payout : String) (now : ℤ) : SummaryEntry :=
  { amount := net, phone := payout, date := now, status := "pending" }

/-- The account mutation of an accepted submission: append the net-valued
summary entry when the embedded array exists, debit the wallet by the gross
amount, add the gross amount to `cashouts` (absent counter read as `0`). -/
def applyWithdrawal (user : User) (amount : ℚ) (net : ℤ) (payout : String)
    (now : ℤ) : User :=
  { user with
    withdrawals :=
      match user.withdrawals with
      | some l => some (l ++ [summaryEntry net payout now])
      | none => none
    wallet := user.wallet - amount
    cashouts := some (user.cashouts.getD 0 + amount) }

/-- The `POST /` handler.  Returns the store after the request together with
the outcome: a rejection, or the net amount reported in the success message.
Every rejection returns the store untouched; the accepted path appends the
new withdrawal document and saves the mutated user. -/
def submit (db : DB) (now : ℤ) (inp : SubmitInput) :
    DB × Except SubmitError ℤ :=
  if inp.userId = "" ∨ jsAmount inp = 0 ∨ payoutOf inp = "" then
    (db, Except.error SubmitError.missingFields)
  else if jsAmount inp < 200 then
    (db, Except.error SubmitError.belowMinimum)
  else if kenyaHour now < 9 ∨ 17 ≤ kenyaHour now then
    (db, Except.error SubmitError.outsideBusinessHours)
  else
    match db.users.find? (fun u => u.id = inp.userId) with
    | none => (db, Except.error SubmitError.accountNotFound)
    | some user =>
      if user.wallet < jsAmount inp then
        (db, Except.error SubmitError.insufficientBalance)
      else
        ({ users := db.users.map (fun u =>
              if u.id = inp.userId then
                applyWithdrawal user (jsAmount inp) (netOf (jsAmount inp))
                  (payoutOf inp) now
              else u)
           withdrawals := db.withdrawals ++ [newDoc db now inp] },
         Except.ok (netOf (jsAmount inp)))

/-- The shape the history mapper produces from a withdrawal document:
`{ _id, amount: amountAfterTax ?? amount, status, date, phone: mpesaNumber }`. -/
structure MappedItem where
  id : ℕ
  amount : ℚ
  status : String
  date : ℤ
  phone : String
deriving DecidableEq

/-- Response of `GET /?userId=...`, one constructor per return site:
400 missing-userId, 404 user-not-found, the embedded-array fallback body,
and the mapped primary-collection body. -/
inductive HistoryResponse where
  | missingUserId
  | userNotFound
  | okEmbedded (history : List SummaryEntry)
  | okRecords (history : List MappedItem)
deriving DecidableEq

/-- Insertion step for the date-descending sort. -/
def insertDateDesc (w : WithdrawalDoc) : List WithdrawalDoc → List WithdrawalDoc
  | [] => [w]
  | x :: xs => if x.date < w.date then w :: x :: xs else x :: insertDateDesc w xs

/-- `.sort({ date: -1 })`: stable sort by date, newest first. -/
def sortDateDesc : List WithdrawalDoc → List WithdrawalDoc
  | [] => []
  | x :: xs => insertDateDesc x (sortDateDesc xs)

/-- `Withdrawal.find({ user: userId }).sort({ date: -1 })`. -/
def findForUser (db : DB) (uid : String) : List WithdrawalDoc :=
  sortDateDesc (db.withdrawals.filter (fun w => w.user = uid))

/-- The `GET /` history handler.  `userId` is the query parameter (`none`
when absent).  A falsy `userId` is rejected before either store is read;
with zero primary records the handler falls back to the user's embedded
array (`user.withdrawals || []`), and otherwise maps the records. -/
def getHistory (db : DB) (userId : Option String) : HistoryResponse :=
  match userId with
  | none => HistoryResponse.missingUserId
  | some uid =>
    if uid = "" then HistoryResponse.missingUserId
    else
      match findForUser db uid with
      | [] =>
        match db.users.find? (fun u => u.id = uid) with
        | none => HistoryResponse.userNotFound
        | some user => HistoryResponse.okEmbedded (user.withdrawals.getD [])
      | w :: ws =>
        HistoryResponse.okRecords ((w :: ws).map (fun r =>
          { id := r.id
            amount := r.amountAfterTax.getD r.amount
            status := r.status
            date := r.date
            phone := r.mpesaNumber }))

/-- One validation check of the spec's sequence: its failure condition and
the rejection it maps to. -/
def specChecks (db : DB) (now : ℤ) (inp : SubmitInput) :
    List (Bool × SubmitError) :=
  [ (decide (inp.userId = "" ∨ jsAmount inp = 0 ∨ payoutOf inp = ""),
      SubmitError.missingFields),
    (decide (jsAmount inp < 200), SubmitError.belowMinimum),
    (decide (kenyaHour now < 9 ∨ 17 ≤ kenyaHour now),
      SubmitError.outsideBusinessHours),
    ((db.users.find? (fun u => u.id = inp.userId)).isNone,
      SubmitError.accountNotFound),
    ((match db.users.find? (fun u => u.id = inp.userId) with
      | some u => decide (u.wallet < jsAmount inp)
      | none => false), SubmitError.insufficientBalance) ]

/-- Modelled from the spec's validation sequence (first failure wins): the
rejection of the first check of `specChecks` whose condition fails, `none`
when all five pass. -/
def specFirstFailure (db : DB) (now : ℤ) (inp : SubmitInput) :
    Option SubmitError :=
  ((specChecks db now inp).find? (fun c => c.1)).map (fun c => c.2)

/-- A sample account used to exercise the handlers on concrete inputs. -/
def sampleUser : User :=
  { id := "u1", fullName := "Alice", phone := "0700", email := "a@x",
    wallet := 5000, cashouts := some 0, withdrawals := some [] }

/-- A sample store holding only `sampleUser`. -/
def sampleDb : DB := { users := [sampleUser], withdrawals := [] }

/-- A well-formed submission of 1000 by `sampleUser`. -/
def sampleInp : SubmitInput :=
  { userId := "u1", amount := some 1000, phone := some "0712", mpesaNumber := none }

/-- The account state expected after `sampleInp` is accepted. -/
def sampleUserAfter : User :=
  { id := "u1", fullName := "Alice", phone := "0700", email := "a@x",
    wallet := 4000, cashouts := some 1000,
    withdrawals := some [{ amount := 820, phone := "0712", date := 43200,
                           status := "pending" }] }

/-- The store expected after `sampleInp` is accepted at instant 43200. -/
def sampleDbAfter : DB :=
  { users := [sampleUserAfter],
    withdrawals := [{ id := 0, user := "u1", amount := 1000,
                      amountAfterTax := some 820, mpesaNumber := "0712",
                      status := "pending", date := 43200 }] }

/-- A submission with an empty (falsy) `userId`. -/
def emptyIdInp : SubmitInput :=
  { userId := "", amount := some 1000, phone := some "0712", mpesaNumber := none }

/-- A submission whose `amount` was non-numeric (`NaN`, coerced to 0). -/
def nanInp : SubmitInput :=
  { userId := "u1", amount := none, phone := some "0712", mpesaNumber := none }

/-- A submission of 150, below the 200 minimum. -/
def lowInp : SubmitInput :=
  { userId := "u1", amount := some 150, phone := some "0712", mpesaNumber := none }

/-- An account whose wallet (100) cannot cover a 500 withdrawal. -/
def poorUser : User :=
  { id := "p1", fullName := "Bob", phone := "0700", email := "b@x",
    wallet := 100, cashouts := none, withdrawals := none }

/-- A store holding only `poorUser`. -/
def poorDb : DB := { users := [poorUser], withdrawals := [] }

/-- A submission of 500 by `poorUser`. -/
def poorInp : SubmitInput :=
  { userId := "p1", amount := some 500, phone := some "0799", mpesaNumber := none }

/-- A sample embedded-history entry. -/
def histEntry : SummaryEntry :=
  { amount := 164, phone := "0733", date := 5, status := "pending" }

/-- An account with an embedded summary list but no primary records. -/
def histUser : User :=
  { id := "u2", fullName := "Carol", phone := "0733", email := "c@x",
    wallet := 0, cashouts := none, withdrawals := some [histEntry] }

/-- A store holding only `histUser` and no withdrawal documents. -/
def histDb : DB := { users := [histUser], withdrawals := [] }

theorem submit_cases (db : DB) (now : ℤ) (inp : SubmitInput) :
    (∃ e, submit db now inp = (db, Except.error e)) ∨
    (∃ user, db.users.find? (fun u => u.id = inp.userId) = some user ∧
      ¬ user.wallet < jsAmount inp ∧
      submit db now inp =
        ({ users := db.users.map (fun u =>
             if u.id = inp.userId then
               applyWithdrawal user (jsAmount inp) (netOf (jsAmount inp))
                 (payoutOf inp) now
             else u)
           withdrawals := db.withdrawals ++ [newDoc db now inp] },
         Except.ok (netOf (jsAmount inp)))) := by
  unfold submit
  split_ifs with h1 h2 h3
  · exact Or.inl ⟨_, rfl⟩
  · exact Or.inl ⟨_, rfl⟩
  · exact Or.inl ⟨_, rfl⟩
  · rcases hfind : db.users.find? (fun u => u.id = inp.userId) with _ | user
    · simp only [hfind]
      exact Or.inl ⟨_, rfl⟩
    · simp only [hfind]
      split_ifs with h4
      · exact Or.inl ⟨_, rfl⟩
      · exact Or.inr ⟨user, rfl, h4, rfl⟩

theorem submit_ok_elim {db : DB} {now : ℤ} {inp : SubmitInput} {db' : DB}
    {n : ℤ} (h : submit db now inp = (db', Except.ok n)) :
    ∃ user, db.users.find? (fun u => u.id = inp.userId) = some user ∧
      ¬ user.wallet < jsAmount inp ∧ n = netOf (jsAmount inp) ∧
      db' = { users := db.users.map (fun u =>
                if u.id = inp.userId then
                  applyWithdrawal user (jsAmount inp) (netOf (jsAmount inp))
                    (payoutOf inp) now
                else u)
              withdrawals := db.withdrawals ++ [newDoc db now inp] } := by
  rcases submit_cases db now inp with ⟨e, he⟩ | ⟨user, hfind, hw, hs⟩
  · rw [he] at h
    injection h with h1 h2
    exact absurd h2 (by simp)
  · rw [hs] at h
    injection h with h1 h2
    injection h2 with h3
    exact ⟨user, hfind, hw, h3.symm, h1.symm⟩

theorem submit_error_fst {db : DB} {now : ℤ} {inp : SubmitInput}
    {e : SubmitError} (h : (submit db now inp).2 = Except.error e) :
    (submit db now inp).1 = db := by
  rcases submit_cases db now inp with ⟨e', he⟩ | ⟨user, _, _, hs⟩
  · rw [he]
  · rw [hs] at h
    exact absurd h (by simp)

theorem sample_submit_eval :
    submit sampleDb 43200 sampleInp = (sampleDbAfter, Except.ok 820) := by
  have hp : payoutOf sampleInp = "0712" := by decide
  have huid : sampleInp.userId = "u1" := rfl
  have hja : jsAmount sampleInp = 1000 := rfl
  have hh : kenyaHour 43200 = 15 := by decide
  have hnet : netOf 1000 = 820 := by norm_num [netOf, tax]
  have hfind : sampleDb.users.find? (fun u => u.id = sampleInp.userId) =
      some sampleUser := rfl
  simp only [submit, hp, huid, hja, hh, hfind, hnet]
  norm_num [newDoc, applyWithdrawal, summaryEntry, hp, huid, hja, hnet,
    sampleUser, sampleDb, sampleDbAfter, sampleUserAfter]
  exact ⟨by decide, by decide⟩

theorem submit_snd_firstFailure (db : DB) (now : ℤ) (inp : SubmitInput) :
    (submit db now inp).2 =
      (match specFirstFailure db now inp with
       | some e => Except.error e
       | none => Except.ok (netOf (jsAmount inp))) := by
  by_cases h1 : inp.userId = "" ∨ jsAmount inp = 0 ∨ payoutOf inp = ""
  · simp [submit, specFirstFailure, specChecks, h1, List.find?]
  · by_cases h2 : jsAmount inp < 200
    · simp [submit, specFirstFailure, specChecks, h1, h2, List.find?]
    · by_cases h3 : kenyaHour now < 9 ∨ 17 ≤ kenyaHour now
      · simp [submit, specFirstFailure, specChecks, h1, h2, h3, List.find?]
      · rcases hfind : db.users.find? (fun u => u.id = inp.userId) with _ | user
        · simp [submit, specFirstFailure, specChecks, h1, h2, h3, hfind,
            List.find?]
        · by_cases h4 : user.wallet < jsAmount inp
          · simp [submit, specFirstFailure, specChecks, h1, h2, h3, hfind, h4,
              List.find?]
          · simp [submit, specFirstFailure, specChecks, h1, h2, h3, hfind, h4,
              List.find?]

theorem submit_obh_iff (db : DB) (now : ℤ) (inp : SubmitInput) :
    (submit db now inp).2 = Except.error SubmitError.outsideBusinessHours ↔
      (¬ (inp.userId = "" ∨ jsAmount inp = 0 ∨ payoutOf inp = "") ∧
        ¬ jsAmount inp < 200 ∧ (kenyaHour now < 9 ∨ 17 ≤ kenyaHour now)) := by
  unfold submit
  split_ifs with h1 h2 h3
  · simp [h1]
  · simp [h1, h2]
  · simp [h1, h2, h3]
  · rcases hfind : db.users.find? (fun u => u.id = inp.userId) with _ | user
    · simp [hfind, h1, h2, h3]
    · simp only [hfind]
      split_ifs with h4
      · simp [h1, h2, h3]
      · simp [h1, h2, h3]

/-- C1: for every accepted submission `submit db now inp = (db', ok n)`, the
side effects are exactly: the new withdrawal document (gross amount, computed
net amount, payout number, status `pending`, the captured instant) is
appended to the withdrawal collection; the user list is rewritten with only
the requesting account changed by `applyWithdrawal`, which appends the
net-valued summary entry to the embedded history list when it exists, debits
the wallet by the gross amount and raises the cumulative cashouts counter by
the gross amount. -/
theorem spec_c1_submit_effects (db : DB) (now : ℤ) (inp : SubmitInput)
    (db' : DB) (n : ℤ) (h : submit db now inp = (db', Except.ok n)) :
    ∃ user, db.users.find? (fun u => u.id = inp.userId) = some user ∧
      n = netOf (jsAmount inp) ∧
      db'.withdrawals = db.withdrawals ++ [newDoc db now inp] ∧
      (newDoc db now inp).amount = jsAmount inp ∧
      (newDoc db now inp).amountAfterTax = some ((netOf (jsAmount inp) : ℤ) : ℚ) ∧
      (newDoc db now inp).mpesaNumber = payoutOf inp ∧
      (newDoc db now inp).status = "pending" ∧
      (newDoc db now inp).date = now ∧
      db'.users = db.users.map (fun u =>
        if u.id = inp.userId then
          applyWithdrawal user (jsAmount inp) (netOf (jsAmount inp))
            (payoutOf inp) now
        else u) ∧
      (applyWithdrawal user (jsAmount inp) (netOf (jsAmount inp))
        (payoutOf inp) now).wallet = user.wallet - jsAmount inp ∧
      (applyWithdrawal user (jsAmount inp) (netOf (jsAmount inp))
        (payoutOf inp) now).cashouts = some (user.cashouts.getD 0 + jsAmount inp) ∧
      (∀ l, user.withdrawals = some l →
        (applyWithdrawal user (jsAmount inp) (netOf (jsAmount inp))
          (payoutOf inp) now).withdrawals =
          some (l ++ [summaryEntry (netOf (jsAmount inp)) (payoutOf inp) now])) ∧
      (summaryEntry (netOf (jsAmount inp)) (payoutOf inp) now).amount =
        netOf (jsAmount inp) := by
  obtain ⟨user, hfind, hw, hn, hdb⟩ := submit_ok_elim h
  subst hdb
  refine ⟨user, hfind, hn, rfl, rfl, rfl, rfl, rfl, rfl, rfl, rfl, rfl, ?_, rfl⟩
  intro l hl
  simp [applyWithdrawal, hl]

theorem spec_c1_submit_effects_witness :
    (submit sampleDb 43200 sampleInp).1.withdrawals =
      sampleDb.withdrawals ++ [newDoc sampleDb 43200 sampleInp] := by
  obtain ⟨user, hfind, hn, hwd, _⟩ :=
    spec_c1_submit_effects sampleDb 43200 sampleInp sampleDbAfter 820
      sample_submit_eval
  rw [sample_submit_eval]
  exact hwd

/-- C2: for every accepted submission the reported net amount is
`netOf (jsAmount inp)`, where the tax is the amount times 18/100 and the net
amount is the floor of the amount minus the tax; in particular
`netOf 1000 = 820` and `netOf 201 = 164`. -/
theorem spec_c2_tax_net :
    (∀ db now inp n, (submit db now inp).2 = Except.ok n →
      n = netOf (jsAmount inp)) ∧
    (∀ a : ℚ, tax a = a * (18 / 100) ∧ netOf a = ⌊a - tax a⌋) ∧
    netOf 1000 = 820 ∧ netOf 201 = 164 := by
  refine ⟨?_, fun a => ⟨rfl, rfl⟩, by norm_num [netOf, tax], by norm_num [netOf, tax]⟩
  intro db now inp n h
  rcases submit_cases db now inp with ⟨e, he⟩ | ⟨user, _, _, hs⟩
  · rw [he] at h
    exact absurd h (by simp)
  · rw [hs] at h
    simp only [Except.ok.injEq] at h
    exact h.symm

theorem spec_c2_tax_net_witness : (820 : ℤ) = netOf (jsAmount sampleInp) :=
  spec_c2_tax_net.1 sampleDb 43200 sampleInp 820 (by rw [sample_submit_eval])

/-- C3: whenever the account exists and its wallet is strictly below the
requested gross amount, the store is left untouched (no record created,
wallet and cashouts unchanged), and — the earlier checks of the validation
sequence passing — the outcome is the `InsufficientBalance` rejection. -/
theorem spec_c3_insufficient_balance (db : DB) (now : ℤ) (inp : SubmitInput)
    (user : User)
    (hfind : db.users.find? (fun u => u.id = inp.userId) = some user)
    (hlt : user.wallet < jsAmount inp) :
    (submit db now inp).1 = db ∧
    (inp.userId ≠ "" → payoutOf inp ≠ "" → ¬ jsAmount inp < 200 →
      ¬ (kenyaHour now < 9 ∨ 17 ≤ kenyaHour now) →
      (submit db now inp).2 = Except.error SubmitError.insufficientBalance) := by
  constructor
  · rcases submit_cases db now inp with ⟨e, he⟩ | ⟨user', hfind', hw', _⟩
    · rw [he]
    · rw [hfind] at hfind'
      injection hfind' with hh
      exact absurd hlt (hh ▸ hw')
  · intro hu hp h200 hh
    have ha0 : ¬ jsAmount inp = 0 := by
      intro h0
      exact h200 (by rw [h0]; norm_num)
    simp [submit, hu, hp, ha0, h200, hh, hfind, hlt]

theorem spec_c3_insufficient_balance_witness :
    (submit poorDb 43200 poorInp).1 = poorDb ∧
    (submit poorDb 43200 poorInp).2 =
      Except.error SubmitError.insufficientBalance := by
  have h := spec_c3_insufficient_balance poorDb 43200 poorInp poorUser rfl
    (by norm_num [poorUser, jsAmount, poorInp])
  exact ⟨h.1, h.2 (by decide) (by decide) (by norm_num [jsAmount, poorInp])
    (by decide)⟩

/-- C4 counterexample: a submission whose amount is non-numeric (coerced to
zero, hence below 200) is rejected with `MissingFields`, not `BelowMinimum`:
the `!amount` required-field test runs first and treats the coerced zero as
a missing field. -/
theorem spec_c4_counterexample :
    jsAmount nanInp < 200 ∧ nanInp.amount = none ∧
    (submit sampleDb 43200 nanInp).2 = Except.error SubmitError.missingFields ∧
    (submit sampleDb 43200 nanInp).2 ≠ Except.error SubmitError.belowMinimum := by
  have h0 : jsAmount nanInp = 0 := rfl
  have hs : (submit sampleDb 43200 nanInp).2 =
      Except.error SubmitError.missingFields := by
    simp [submit, h0]
  refine ⟨by rw [h0]; norm_num, rfl, hs, ?_⟩
  rw [hs]
  simp

/-- C4 (amended): a non-numeric amount is coerced to zero and rejected by
the required-fields rule (`MissingFields`), not by a type error; and every
submission whose coerced amount is non-zero and strictly below 200, with the
other required fields present, is rejected with `BelowMinimum`. -/
theorem spec_c4_below_minimum (db : DB) (now : ℤ) (inp : SubmitInput) :
    (inp.amount = none →
      (submit db now inp).2 = Except.error SubmitError.missingFields) ∧
    (inp.userId ≠ "" → payoutOf inp ≠ "" → jsAmount inp ≠ 0 →
      jsAmount inp < 200 →
      (submit db now inp).2 = Except.error SubmitError.belowMinimum) := by
  constructor
  · intro hnone
    have h0 : jsAmount inp = 0 := by
      rw [jsAmount, hnone]
      rfl
    simp [submit, h0]
  · intro hu hp ha0 h200
    simp [submit, hu, hp, ha0, h200]

theorem spec_c4_below_minimum_witness :
    (submit sampleDb 43200 lowInp).2 = Except.error SubmitError.belowMinimum :=
  (spec_c4_below_minimum sampleDb 43200 lowInp).2 (by decide) (by decide)
    (by norm_num [jsAmount, lowInp]) (by norm_num [jsAmount, lowInp])

/-- C5: the five validation checks are evaluated in the fixed order of
`specChecks` (presence, minimum amount, business hours, account existence,
sufficient balance): the handler's rejection is exactly the distinct error
of the first failing check, an accepted submission passes all five, and no
error path mutates the store. -/
theorem spec_c5_validation_order (db : DB) (now : ℤ) (inp : SubmitInput) :
    (∀ e, (submit db now inp).2 = Except.error e ↔
      specFirstFailure db now inp = some e) ∧
    (∀ n, (submit db now inp).2 = Except.ok n →
      specFirstFailure db now inp = none) ∧
    (∀ e, (submit db now inp).2 = Except.error e → (submit db now inp).1 = db) ∧
    (specChecks db now inp).map (fun c => c.2) =
      [SubmitError.missingFields, SubmitError.belowMinimum,
       SubmitError.outsideBusinessHours, SubmitError.accountNotFound,
       SubmitError.insufficientBalance] ∧
    List.Pairwise (fun a b => a ≠ b)
      [SubmitError.missingFields, SubmitError.belowMinimum,
       SubmitError.outsideBusinessHours, SubmitError.accountNotFound,
       SubmitError.insufficientBalance] := by
  refine ⟨?_, ?_, fun e he => submit_error_fst he, rfl, by decide⟩
  · intro e
    rw [submit_snd_firstFailure db now inp]
    rcases hsf : specFirstFailure db now inp with _ | e' <;> simp
  · intro n hn
    rw [submit_snd_firstFailure db now inp] at hn
    rcases hsf : specFirstFailure db now inp with _ | e'
    · rfl
    · rw [hsf] at hn
      exact absurd hn (fun hc => Except.noConfusion hc)

theorem spec_c5_validation_order_witness :
    specFirstFailure sampleDb 43200 emptyIdInp = some SubmitError.missingFields :=
  ((spec_c5_validation_order sampleDb 43200 emptyIdInp).1
    SubmitError.missingFields).mp rfl

/-- C6: the handler rejects with `OutsideBusinessHours` only when the hour
of the instant in the fixed UTC+3 zone lies outside the half-open interval
from 9 to 17; once the presence and minimum checks pass, that rejection
occurs exactly when the hour is outside the window.  An instant whose Kenya
hour is 9 is never rejected for business hours, and one whose Kenya hour is
17 is (the window being half-open). -/
theorem spec_c6_business_hours (db : DB) (now : ℤ) (inp : SubmitInput) :
    ((submit db now inp).2 = Except.error SubmitError.outsideBusinessHours →
      (kenyaHour now < 9 ∨ 17 ≤ kenyaHour now)) ∧
    (inp.userId ≠ "" → payoutOf inp ≠ "" → ¬ jsAmount inp < 200 →
      ((submit db now inp).2 = Except.error SubmitError.outsideBusinessHours ↔
        (kenyaHour now < 9 ∨ 17 ≤ kenyaHour now))) ∧
    (kenyaHour now = 9 →
      (submit db now inp).2 ≠ Except.error SubmitError.outsideBusinessHours) ∧
    (kenyaHour now = 17 → inp.userId ≠ "" → payoutOf inp ≠ "" →
      ¬ jsAmount inp < 200 →
      (submit db now inp).2 = Except.error SubmitError.outsideBusinessHours) := by
  have hiff := submit_obh_iff db now inp
  refine ⟨fun h => (hiff.mp h).2.2, ?_, ?_, ?_⟩
  · intro hu hp h200
    constructor
    · exact fun h => (hiff.mp h).2.2
    · intro h3
      have ha0 : ¬ jsAmount inp = 0 := fun h0 => h200 (by rw [h0]; norm_num)
      exact hiff.mpr
        ⟨fun hor => hor.elim hu (fun h2 => h2.elim ha0 hp), h200, h3⟩
  · intro h9 h
    have h3 := (hiff.mp h).2.2
    rcases h3 with h3 | h3 <;> omega
  · intro h17 hu hp h200
    have ha0 : ¬ jsAmount inp = 0 := fun h0 => h200 (by rw [h0]; norm_num)
    exact hiff.mpr
      ⟨fun hor => hor.elim hu (fun h2 => h2.elim ha0 hp), h200, Or.inr (by omega)⟩

theorem spec_c6_business_hours_witness :
    (submit sampleDb 50400 sampleInp).2 =
      Except.error SubmitError.outsideBusinessHours :=
  (spec_c6_business_hours sampleDb 50400 sampleInp).2.2.2 (by decide)
    (by decide) (by decide) (by norm_num [jsAmount, sampleInp])

/-- C7: a submit operation never drives a wallet negative: if every account
in the store has a non-negative wallet balance before the operation, every
account still has a non-negative wallet balance afterwards, whatever the
outcome — the debit is guarded by the balance pre-check. -/
theorem spec_c7_wallet_nonneg (db : DB) (now : ℤ) (inp : SubmitInput)
    (h : ∀ u, u ∈ db.users → 0 ≤ u.wallet) :
    ∀ u', u' ∈ (submit db now inp).1.users → 0 ≤ u'.wallet := by
  rcases submit_cases db now inp with ⟨e, he⟩ | ⟨user, hfind, hw, hs⟩
  · rw [he]
    exact h
  · rw [hs]
    intro u' hu'
    simp only [List.mem_map] at hu'
    obtain ⟨u, hu, rfl⟩ := hu'
    by_cases hid : u.id = inp.userId
    · rw [if_pos hid]
      show 0 ≤ user.wallet - jsAmount inp
      exact sub_nonneg.mpr (not_lt.mp hw)
    · rw [if_neg hid]
      exact h u hu

theorem spec_c7_wallet_nonneg_witness : (0 : ℚ) ≤ sampleUserAfter.wallet := by
  have hmem : sampleUserAfter ∈ (submit sampleDb 43200 sampleInp).1.users := by
    rw [sample_submit_eval]
    simp [sampleDbAfter]
  exact spec_c7_wallet_nonneg sampleDb 43200 sampleInp
    (by
      intro u hu
      simp [sampleDb] at hu
      subst hu
      norm_num [sampleUser])
    sampleUserAfter hmem

/-- C8: a history query for an account with zero records in the withdrawal
collection answers from the account document: `userNotFound` when the
account does not exist, the embedded summary list verbatim when it exists,
and the empty sequence when the account lacks the embedded list. -/
theorem spec_c8_history_fallback (db : DB) (uid : String) (hne : uid ≠ "")
    (hzero : db.withdrawals.filter (fun w => w.user = uid) = []) :
    (db.users.find? (fun u => u.id = uid) = none →
      getHistory db (some uid) = HistoryResponse.userNotFound) ∧
    (∀ user, db.users.find? (fun u => u.id = uid) = some user →
      getHistory db (some uid) =
        HistoryResponse.okEmbedded (user.withdrawals.getD []) ∧
      (∀ l, user.withdrawals = some l →
        getHistory db (some uid) = HistoryResponse.okEmbedded l) ∧
      (user.withdrawals = none →
        getHistory db (some uid) = HistoryResponse.okEmbedded [])) := by
  have hfor : findForUser db uid = [] := by
    rw [findForUser, hzero]
    rfl
  constructor
  · intro hnone
    simp [getHistory, hne, hfor, hnone]
  · intro user huser
    have hbase : getHistory db (some uid) =
        HistoryResponse.okEmbedded (user.withdrawals.getD []) := by
      simp [getHistory, hne, hfor, huser]
    refine ⟨hbase, fun l hl => ?_, fun hnone => ?_⟩
    · rw [hbase, hl]
      rfl
    · rw [hbase, hnone]
      rfl

theorem spec_c8_history_fallback_witness :
    getHistory histDb (some "u2") = HistoryResponse.okEmbedded [histEntry] :=
  (((spec_c8_history_fallback histDb "u2" (by decide) rfl).2 histUser rfl).2.1
    [histEntry] rfl)

/-- C9: a history request with no `userId` in the query string is answered
with the 400 missing-userId rejection, computed without consulting either
store — the response is the same for every store state. -/
theorem spec_c9_missing_query (db db' : DB) :
    getHistory db none = HistoryResponse.missingUserId ∧
    getHistory db none = getHistory db' none :=
  ⟨rfl, rfl⟩

/-- C10: an accepted submission rewrites the user list so that only the
requesting account changes, and `applyWithdrawal` touches only the wallet,
the cashouts counter and an already-existing embedded list: the id, name,
phone and email fields are preserved, an account without the embedded list
does not gain one, and every other account is kept as it was. -/
theorem spec_c10_account_frame (db : DB) (now : ℤ) (inp : SubmitInput)
    (db' : DB) (n : ℤ) (h : submit db now inp = (db', Except.ok n)) :
    ∃ user, db.users.find? (fun u => u.id = inp.userId) = some user ∧
      db'.users = db.users.map (fun u =>
        if u.id = inp.userId then
          applyWithdrawal user (jsAmount inp) (netOf (jsAmount inp))
            (payoutOf inp) now
        else u) ∧
      (∀ (u : User) (a : ℚ) (net : ℤ) (p : String) (t : ℤ),
        (applyWithdrawal u a net p t).id = u.id ∧
        (applyWithdrawal u a net p t).fullName = u.fullName ∧
        (applyWithdrawal u a net p t).phone = u.phone ∧
        (applyWithdrawal u a net p t).email = u.email ∧
        (u.withdrawals = none → (applyWithdrawal u a net p t).withdrawals = none)) ∧
      (∀ u, u ∈ db.users → u.id ≠ inp.userId → u ∈ db'.users) := by
  obtain ⟨user, hfind, hw, hn, hdb⟩ := submit_ok_elim h
  subst hdb
  refine ⟨user, hfind, rfl, ?_, ?_⟩
  · intro u a net p t
    refine ⟨rfl, rfl, rfl, rfl, fun hnone => ?_⟩
    simp [applyWithdrawal, hnone]
  · intro u hu hne
    exact List.mem_map.mpr ⟨u, hu, by simp [hne]⟩

theorem spec_c10_account_frame_witness :
    (applyWithdrawal sampleUser (jsAmount sampleInp) (netOf (jsAmount sampleInp))
      (payoutOf sampleInp) 43200).fullName = sampleUser.fullName ∧
    (applyWithdrawal sampleUser (jsAmount sampleInp) (netOf (jsAmount sampleInp))
      (payoutOf sampleInp) 43200).email = sampleUser.email := by
  obtain ⟨user, hfind, husers, hframe, _⟩ :=
    spec_c10_account_frame sampleDb 43200 sampleInp sampleDbAfter 820
      sample_submit_eval
  exact ⟨(hframe sampleUser (jsAmount sampleInp) (netOf (jsAmount sampleInp))
      (payoutOf sampleInp) 43200).2.1,
    (hframe sampleUser (jsAmount sampleInp) (netOf (jsAmount sampleInp))
      (payoutOf sampleInp) 43200).2.2.2.1⟩
